import Mathlib

/-!
Verification of the commission engine of OrthoTracker Pro
(`OrthotrackerPro_Full_Streamlit_MVP.py`, function
`calculate_commission_for_procedure`, together with the `Procedure` and
`CommissionRule` ORM models it reads).

Modelling conventions:
* Python/SQL floats (`revenue`, `value`, the running total) are modelled as
  rationals `ℚ`; the spec states the result is carried at full precision with
  no rounding, and every verified property is an exact arithmetic identity.
* `datetime` values (`effective_from`, `effective_to`, `now`) are modelled as
  integers `Int`; only their ordering is ever used by the code.
* A JSON value (the `condition` column) is the inductive `PyVal`; a SQL NULL
  in that column is `Option.none`, mirroring `r.condition or {}` in the code.
* Nullable scalar columns of `Procedure` are `Option`-valued; a Python `None`
  attribute and an absent attribute both surface as `Option.none` through
  `Procedure.getattr`, exactly as `getattr(procedure, k, None)` does.
* Rule columns that every creation path populates with their ORM defaults
  (`mode`, `value`, `active`, `effective_from`, `effective_to`) are modelled
  non-optional at those defaults' types.
* The evaluator returns `Except String ℚ`: a truthy non-dict `condition`
  makes `cond.items()` raise `AttributeError` in Python, and the model keeps
  that partiality explicit.
-/

/-- Values a JSON `condition` column or a procedure attribute may hold,
mirroring the Python scalar and container types that reach the evaluator.
`pdatetime` covers the `created_at` column. -/
inductive PyVal where
  | pstr (s : String)
  | pint (n : Int)
  | pfloat (q : ℚ)
  | pbool (b : Bool)
  | pnone
  | pdatetime (t : Int)
  | plist (xs : List PyVal)
  | pdict (xs : List (String × PyVal))

/-- Single-quote character used by Python `repr` of strings. -/
def pyQuote : String := String.singleton (Char.ofNat 39)

/-- Python `str()` of a float value, modelled over rationals. Exact for
floats with integral value (printed as the integer followed by ".0", the
only float rendering any theorem below could meet); a non-integral value is
printed as numerator/denominator, which no theorem relies on. -/
def floatStr (q : ℚ) : String :=
  if q.den = 1 then toString q.num ++ ".0"
  else toString q.num ++ "/" ++ toString q.den

mutual

/-- Python `repr()` of a value. Strings are wrapped in single quotes
(exact for strings without quotes, backslashes or control characters);
`pdatetime` uses an abstract rendering of `datetime.datetime` repr. No
theorem below depends on the repr of containers or datetimes. -/
def pyRepr : PyVal → String
  | PyVal.pstr s => pyQuote ++ s ++ pyQuote
  | PyVal.pint n => toString n
  | PyVal.pfloat q => floatStr q
  | PyVal.pbool b => if b then "True" else "False"
  | PyVal.pnone => "None"
  | PyVal.pdatetime t => "datetime.datetime(" ++ toString t ++ ")"
  | PyVal.plist xs => "[" ++ pyReprList xs ++ "]"
  | PyVal.pdict xs => "\x7b" ++ pyReprDict xs ++ "\x7d"

/-- Comma-separated reprs of the elements of a Python list. -/
def pyReprList : List PyVal → String
  | [] => ""
  | [x] => pyRepr x
  | x :: y :: xs => pyRepr x ++ ", " ++ pyReprList (y :: xs)

/-- Comma-separated `key: value` reprs of the entries of a Python dict. -/
def pyReprDict : List (String × PyVal) → String
  | [] => ""
  | [kv] => pyQuote ++ kv.1 ++ pyQuote ++ ": " ++ pyRepr kv.2
  | kv :: kv2 :: xs =>
      pyQuote ++ kv.1 ++ pyQuote ++ ": " ++ pyRepr kv.2 ++ ", "
        ++ pyReprDict (kv2 :: xs)

end

/-- Python `str()` of a value: the string itself for strings, `repr` for
everything the evaluator can meet otherwise (ints, floats, bools, `None`,
lists, dicts; the datetime rendering is abstracted by `pyRepr`). -/
def pyStr : PyVal → String
  | PyVal.pstr s => s
  | v => pyRepr v

/-- Python truthiness of a value, as used by `r.condition or {}`. -/
def pyTruthy : PyVal → Bool
  | PyVal.pstr s => !s.isEmpty
  | PyVal.pint n => n != 0
  | PyVal.pfloat q => q != 0
  | PyVal.pbool b => b
  | PyVal.pnone => false
  | PyVal.pdatetime _ => true
  | PyVal.plist xs => !xs.isEmpty
  | PyVal.pdict xs => !xs.isEmpty

/-- The `procedures` table row (class `Procedure`): scalar columns as
declared in the source; nullable columns are `Option`-valued. The
`attachments` ORM relationship and class-level machinery attributes are
outside the attribute map conditions are authored against and are not
modelled. -/
structure Procedure where
  id : Int
  rep_id : Option Int
  rep_name : Option String
  hospital : Option String
  surgeon : Option String
  procedure_type : Option String
  date : Option String
  revenue : Option ℚ
  notes : Option String
  status : Option String
  created_at : Int

/-- The `commission_rules` table row (class `CommissionRule`). `condition`
is a JSON column that may be NULL (`Option.none`); the remaining columns are
modelled at their ORM defaults' types since every creation path populates
them. -/
structure CommissionRule where
  id : Int
  name : Option String
  condition : Option PyVal
  mode : String
  value : ℚ
  active : Bool
  effective_from : Int
  effective_to : Int

/-- Python `getattr(procedure, k, None)` over the declared columns: an
unknown attribute name and a NULL column value both yield `Option.none`,
exactly as both yield Python `None` in the source. -/
def Procedure.getattr (p : Procedure) (k : String) : Option PyVal :=
  match k with
  | "id" => some (PyVal.pint p.id)
  | "rep_id" => p.rep_id.map PyVal.pint
  | "rep_name" => p.rep_name.map PyVal.pstr
  | "hospital" => p.hospital.map PyVal.pstr
  | "surgeon" => p.surgeon.map PyVal.pstr
  | "procedure_type" => p.procedure_type.map PyVal.pstr
  | "date" => p.date.map PyVal.pstr
  | "revenue" => p.revenue.map PyVal.pfloat
  | "notes" => p.notes.map PyVal.pstr
  | "status" => p.status.map PyVal.pstr
  | "created_at" => some (PyVal.pdatetime p.created_at)
  | _ => Option.none

/-- The expression `r.condition or {}`: SQL NULL and falsy values (empty
dict, empty list, empty string, zero, `False`) are replaced by the empty
dict; any truthy value passes through unchanged. -/
def condDict : Option PyVal → PyVal
  | Option.none => PyVal.pdict []
  | some v => if pyTruthy v then v else PyVal.pdict []

/-- Python `str.lower()`. `Char.toLower` lowercases exactly the ASCII
uppercase range; Python additionally lowercases non-ASCII letters, which no
data in this repository and no theorem below uses. -/
def strLower (s : String) : String := String.mk (s.data.map Char.toLower)

/-- The inner `for k, v in cond.items()` loop: the rule matches unless some
pair finds a missing/None attribute or a lowercased-string mismatch
(`str(pv).lower() != str(v).lower()`). The loop's early `break` is
observationally `List.all`. -/
def matchesCond (p : Procedure) (items : List (String × PyVal)) : Bool :=
  items.all fun kv =>
    match p.getattr kv.1 with
    | Option.none => false
    | some pv => decide (strLower (pyStr pv) = strLower (pyStr kv.2))

/-- The per-rule amount added when a rule matches:
`(procedure.revenue or 0.0) * (r.value / 100.0)` in `percentage` mode, and
`r.value` in every other mode (the `else` branch). `revenue or 0.0` maps
`None` to zero; a stored `0.0` is falsy in Python but is replaced by the
same value, so `Option.getD 0` is exact. -/
def ruleContribution (p : Procedure) (r : CommissionRule) : ℚ :=
  if r.mode = "percentage" then (p.revenue.getD 0) * (r.value / 100)
  else r.value

/-- The SQLAlchemy filter selecting candidate rules:
`active == True`, `effective_from <= now`, `effective_to >= now`. -/
def inForce (r : CommissionRule) (now : Int) : Bool :=
  r.active && decide (r.effective_from ≤ now) && decide (r.effective_to ≥ now)

/-- The `for r in rules` loop with its running total `total_comm`,
threaded as the accumulator `acc`. Calling `.items()` on a truthy non-dict
`condition` raises `AttributeError`, which propagates and discards the
partial total, hence the `Except` error. -/
def calcGo (p : Procedure) : List CommissionRule → ℚ → Except String ℚ
  | [], acc => Except.ok acc
  | r :: rest, acc =>
    match condDict r.condition with
    | PyVal.pdict items =>
        if matchesCond p items then calcGo p rest (acc + ruleContribution p r)
        else calcGo p rest acc
    | _ => Except.error "AttributeError"

/-- The commission evaluator `calculate_commission_for_procedure(db, procedure)`.
The database session is modelled as the list of all stored rules; the query
filter keeps the in-force ones; `now` (read from `datetime.utcnow()` in the
source) is the explicit evaluation instant. -/
def calculate_commission_for_procedure
    (p : Procedure) (db : List CommissionRule) (now : Int) : Except String ℚ :=
  calcGo p (db.filter fun r => inForce r now) 0

/-- A rule's condition is evaluable (its `.items()` call cannot raise) iff
`r.condition or {}` is a dict. -/
def condOk (c : Option PyVal) : Bool :=
  match condDict c with
  | PyVal.pdict _ => true
  | _ => false

/-- Whether a rule's condition matches the procedure, as decided by the
inner loop of the source; a rule whose condition would raise is never a
match (the question does not arise: evaluation aborts first). -/
def ruleMatches (p : Procedure) (r : CommissionRule) : Bool :=
  match condDict r.condition with
  | PyVal.pdict items => matchesCond p items
  | _ => false

/-- An evaluable condition is a dict after `or {}` normalization. -/
theorem condOk_dict {c : Option PyVal} (h : condOk c = true) :
    ∃ xs, condDict c = PyVal.pdict xs := by
  unfold condOk at h
  cases hcd : condDict c <;> rw [hcd] at h <;> simp_all

/-- A matching rule has an evaluable condition whose items pass the inner
loop. -/
theorem ruleMatches_elim {p : Procedure} {r : CommissionRule}
    (h : ruleMatches p r = true) :
    ∃ items, condDict r.condition = PyVal.pdict items ∧
      matchesCond p items = true := by
  unfold ruleMatches at h
  cases hcd : condDict r.condition <;> rw [hcd] at h <;> simp_all

/-- Threading the running total: the loop starting from `a` is the loop
starting from zero with `a` added to a successful result. -/
theorem calcGo_acc (p : Procedure) (l : List CommissionRule) (a : ℚ) :
    calcGo p l a = Except.map (fun q => a + q) (calcGo p l 0) := by
  induction l generalizing a with
  | nil => simp [calcGo, Except.map]
  | cons r rest ih =>
    simp only [calcGo]
    cases hcd : condDict r.condition <;> simp only []
    case pdict items =>
      by_cases hm : matchesCond p items = true
      · rw [if_pos hm, if_pos hm, ih, ih (0 + ruleContribution p r)]
        cases calcGo p rest 0 with
        | error e => simp [Except.map]
        | ok q => simp [Except.map]; ring
      · rw [if_neg hm, if_neg hm, ih]
    all_goals simp [Except.map]

/-- The loop over a list of rules with evaluable conditions succeeds and
returns the accumulator plus the sum of the matching rules' contributions. -/
theorem calcGo_sum (p : Procedure) (l : List CommissionRule)
    (h : ∀ r ∈ l, condOk r.condition = true) (a : ℚ) :
    calcGo p l a = Except.ok
      (a + ((l.filter fun r => ruleMatches p r).map fun r =>
        ruleContribution p r).sum) := by
  induction l generalizing a with
  | nil => simp [calcGo]
  | cons r rest ih =>
    have hr := h r (List.mem_cons_self r rest)
    have hrest : ∀ x ∈ rest, condOk x.condition = true :=
      fun x hx => h x (List.mem_cons_of_mem _ hx)
    obtain ⟨items, hcd⟩ := condOk_dict hr
    have hrm : ruleMatches p r = matchesCond p items := by
      simp [ruleMatches, hcd]
    simp only [calcGo, hcd]
    by_cases hm : matchesCond p items = true
    · rw [if_pos hm, ih hrest, List.filter_cons_of_pos (by rw [hrm]; exact hm)]
      simp only [List.map_cons, List.sum_cons]
      rw [Except.ok.injEq]
      ring
    · rw [if_neg hm, ih hrest,
        List.filter_cons_of_neg (by rw [hrm]; exact hm)]

/-- Appending an in-force matching rule at the head of the rule set adds its
contribution to a successful evaluation of the rest. -/
theorem calc_cons_match (p : Procedure) (r : CommissionRule)
    (db : List CommissionRule) (now : Int) (hf : inForce r now = true)
    (hm : ruleMatches p r = true) :
    calculate_commission_for_procedure p (r :: db) now =
      Except.map (fun q => ruleContribution p r + q)
        (calculate_commission_for_procedure p db now) := by
  unfold calculate_commission_for_procedure
  rw [List.filter_cons_of_pos (p := fun x => inForce x now) hf]
  obtain ⟨items, hcd, hmc⟩ := ruleMatches_elim hm
  simp only [calcGo, hcd]
  rw [if_pos hmc, calcGo_acc, zero_add]

/-- A rule that is inactive or whose window misses `now` fails the query
filter. -/
theorem inForce_false {r : CommissionRule} {now : Int}
    (h : r.active = false ∨ now < r.effective_from ∨ r.effective_to < now) :
    inForce r now = false := by
  rcases h with h | h | h <;> simp [inForce, h]

/-- Example procedure from the spec's end-to-end scenario family: a knee
arthroplasty at County Hospital with revenue 10000. Fields follow the
declaration order of `Procedure`. -/
def procCounty : Procedure :=
  ⟨1, Option.none, Option.none, some "County Hospital", Option.none,
    some "Knee Arthroplasty", Option.none, some 10000, Option.none,
    some "pending", 0⟩

/-- Rule A of the spec's precedence example: fixed 500, unconditional,
active over a window containing the instant 0. Fields follow the
declaration order of `CommissionRule`. -/
def ruleFixedA : CommissionRule :=
  ⟨1, Option.none, Option.none, "fixed", 500, true, -1000, 1000⟩

/-- Rule B of the spec's precedence example: percentage 10,
unconditional, active over a window containing the instant 0. -/
def rulePctB : CommissionRule :=
  ⟨2, Option.none, Option.none, "percentage", 10, true, -1000, 1000⟩

/-- A rule whose condition value is a boolean, a type mismatch against the
string-valued `status` column. -/
def ruleBoolCond : CommissionRule :=
  ⟨3, Option.none, some (PyVal.pdict [("status", PyVal.pbool true)]),
    "fixed", 5, true, -1000, 1000⟩

/-- A procedure whose `status` column stores the string "True". -/
def procStatusTrue : Procedure :=
  ⟨2, Option.none, Option.none, Option.none, Option.none, Option.none,
    Option.none, Option.none, Option.none, some "True", 0⟩

/-- The spec's case-insensitivity example rule: condition
`procedure_type = "Knee Arthroplasty"`, percentage 5. -/
def ruleKnee : CommissionRule :=
  ⟨4, Option.none,
    some (PyVal.pdict [("procedure_type", PyVal.pstr "Knee Arthroplasty")]),
    "percentage", 5, true, -1000, 1000⟩

/-- A procedure whose `procedure_type` is stored in lower case. -/
def procKneeLower : Procedure :=
  ⟨3, Option.none, Option.none, Option.none, Option.none,
    some "knee arthroplasty", Option.none, some 200000, Option.none,
    Option.none, 0⟩

/-- An unconditional in-force rule with a negative fixed value. -/
def ruleNegative : CommissionRule :=
  ⟨5, Option.none, Option.none, "fixed", -1, true, -1000, 1000⟩

/-- An unconditional rule whose effective window ended before instant 0. -/
def ruleExpired : CommissionRule :=
  ⟨6, Option.none, Option.none, "fixed", 900, true, -10, -5⟩

/-- An unconditional rule with `active = false`. -/
def ruleInactive : CommissionRule :=
  ⟨7, Option.none, Option.none, "fixed", 900, false, -1000, 1000⟩

/-- An unconditional in-force rule with a misspelled mode string. -/
def ruleTypoMode : CommissionRule :=
  ⟨8, Option.none, Option.none, "fixd", 250, true, -1000, 1000⟩

/-- A procedure whose `notes` column is NULL (Python `None`). -/
def procNoNotes : Procedure :=
  ⟨4, Option.none, Option.none, Option.none, Option.none, Option.none,
    Option.none, Option.none, Option.none, Option.none, 0⟩

/-- A rule whose condition references `notes` with expected value "none". -/
def ruleNotesNone : CommissionRule :=
  ⟨9, Option.none, some (PyVal.pdict [("notes", PyVal.pstr "none")]),
    "fixed", 40, true, -1000, 1000⟩

/-- C1: for every procedure and every rule set whose conditions are
mappings and whose modes are `percentage` or `fixed`, the evaluator returns
exactly the sum, over all in-force rules matching the procedure, of each
rule's contribution — `revenue * (value / 100)` for percentage mode and
`value` (independent of revenue) for fixed mode — with no precedence
between rules. -/
theorem commission_is_sum_of_matching_contributions
    (p : Procedure) (db : List CommissionRule) (now : Int)
    (hcond : ∀ r ∈ db, condOk r.condition = true)
    (hmode : ∀ r ∈ db, r.mode = "percentage" ∨ r.mode = "fixed") :
    calculate_commission_for_procedure p db now = Except.ok
      (((db.filter fun r => inForce r now && ruleMatches p r).map fun r =>
          if r.mode = "percentage" then (p.revenue.getD 0) * (r.value / 100)
          else if r.mode = "fixed" then r.value else 0).sum) := by
  unfold calculate_commission_for_procedure
  rw [calcGo_sum p _ (fun r hr => hcond r (List.mem_filter.1 hr).1) 0,
    zero_add, List.filter_filter]
  have hfc : (db.filter fun r => ruleMatches p r && inForce r now)
      = (db.filter fun r => inForce r now && ruleMatches p r) :=
    List.filter_congr fun x _ => Bool.and_comm _ _
  rw [hfc, Except.ok.injEq]
  refine congrArg List.sum (List.map_congr_left fun r hr => ?_)
  rcases hmode r (List.mem_filter.1 hr).1 with h | h <;>
    simp [ruleContribution, h]

/-- Witness for C1 at the spec's own example: a matching fixed-500 rule and
a matching percentage-10 rule on revenue 10000 total 1500. -/
theorem commission_is_sum_of_matching_contributions_witness :
    calculate_commission_for_procedure procCounty [ruleFixedA, rulePctB] 0 =
      Except.ok 1500 := by
  refine (commission_is_sum_of_matching_contributions procCounty
    [ruleFixedA, rulePctB] 0 (by decide) (by decide)).trans ?_
  simp [ruleFixedA, rulePctB, procCounty, inForce, ruleMatches, condDict,
    matchesCond, List.filter]
  norm_num

/-- C2: a rule that is inactive, or whose effective window does not contain
the evaluation instant (bounds inclusive), never contributes: removing it
from the rule set leaves the evaluator's result unchanged, whatever its
condition. -/
theorem out_of_force_rule_never_contributes
    (p : Procedure) (db1 db2 : List CommissionRule) (r : CommissionRule)
    (now : Int)
    (h : r.active = false ∨ now < r.effective_from ∨ r.effective_to < now) :
    calculate_commission_for_procedure p (db1 ++ r :: db2) now =
      calculate_commission_for_procedure p (db1 ++ db2) now := by
  unfold calculate_commission_for_procedure
  rw [List.filter_append, List.filter_append,
    List.filter_cons_of_neg (by rw [inForce_false h]; exact Bool.false_ne_true)]

/-- Witness for C2: dropping an expired rule and an inactive rule from the
rule set leaves the result unchanged (two applications at concrete
inputs, chained). -/
theorem out_of_force_rule_never_contributes_witness :
    calculate_commission_for_procedure procCounty
      ([ruleFixedA] ++ ruleExpired :: [rulePctB]) 0 =
      calculate_commission_for_procedure procCounty ([ruleFixedA] ++ [rulePctB]) 0 := by
  exact out_of_force_rule_never_contributes procCounty [ruleFixedA] [rulePctB]
    ruleExpired 0 (Or.inr (Or.inr (by norm_num [ruleExpired])))

/-- C3: a rule matches the procedure iff every (key, expected value) pair
of its condition mapping finds a non-None attribute on the procedure whose
lowercased string form equals the expected value's lowercased string form;
matching is case-insensitive and fails closed on absent attributes. -/
theorem rule_matches_iff_all_pairs_lower_eq
    (p : Procedure) (r : CommissionRule) (cond : List (String × PyVal))
    (hcd : condDict r.condition = PyVal.pdict cond) :
    ruleMatches p r = true ↔
      ∀ kv ∈ cond, ∃ pv, p.getattr kv.1 = some pv ∧
        strLower (pyStr pv) = strLower (pyStr kv.2) := by
  unfold ruleMatches
  rw [hcd]
  unfold matchesCond
  rw [List.all_eq_true]
  refine ⟨fun h kv hkv => ?_, fun h kv hkv => ?_⟩
  · have h2 := h kv hkv
    cases hg : p.getattr kv.1 with
    | none => simp [hg] at h2
    | some pv =>
        simp only [hg, decide_eq_true_eq] at h2
        exact ⟨pv, rfl, h2⟩
  · obtain ⟨pv, hg, he⟩ := h kv hkv
    simp [hg, he]

/-- Witness for C3 at the spec's case-insensitivity example: the condition
`procedure_type = "Knee Arthroplasty"` matches a procedure storing
`"knee arthroplasty"`. -/
theorem rule_matches_iff_all_pairs_lower_eq_witness :
    ruleMatches procKneeLower ruleKnee = true := by
  refine (rule_matches_iff_all_pairs_lower_eq procKneeLower ruleKnee
    [("procedure_type", PyVal.pstr "Knee Arthroplasty")] rfl).mpr ?_
  intro kv hkv
  rw [List.mem_singleton] at hkv
  subst hkv
  exact ⟨PyVal.pstr "knee arthroplasty", rfl, by decide⟩

/-- C4 counterexample: a condition value of the wrong type (boolean `True`
against the string column `status`) is not treated as a non-match — after
`str(...).lower()` normalization it matches the stored string "True" and
the rule contributes its full value. -/
theorem malformed_value_not_nonmatch_cex :
    ruleMatches procStatusTrue ruleBoolCond = true ∧
      calculate_commission_for_procedure procStatusTrue [ruleBoolCond] 0 =
        Except.ok 5 ∧ (5 : ℚ) ≠ 0 := by
  refine ⟨by decide, ?_, by norm_num⟩
  simp [calculate_commission_for_procedure, calcGo, condDict, matchesCond,
    ruleContribution, inForce, procStatusTrue, ruleBoolCond, List.filter,
    Procedure.getattr, pyTruthy, strLower, pyStr, pyRepr]

/-- C4 as amended: whenever every rule's condition is absent or a mapping —
whatever the types of the mapped values — the evaluator raises no exception
and evaluates every rule, returning a total; a type-mismatched value is
compared through its lowercased string form rather than being forced to a
non-match. -/
theorem evaluator_total_on_mapping_conditions
    (p : Procedure) (db : List CommissionRule) (now : Int)
    (h : ∀ r ∈ db, condOk r.condition = true) :
    ∃ q, calculate_commission_for_procedure p db now = Except.ok q := by
  unfold calculate_commission_for_procedure
  exact ⟨_, calcGo_sum p _ (fun r hr => h r (List.mem_filter.1 hr).1) 0⟩

/-- Witness for amended C4: a rule set containing the type-mismatched
boolean condition value evaluates without an exception. -/
theorem evaluator_total_on_mapping_conditions_witness :
    ∃ q, calculate_commission_for_procedure procStatusTrue
      [ruleBoolCond, ruleFixedA] 0 = Except.ok q :=
  evaluator_total_on_mapping_conditions procStatusTrue
    [ruleBoolCond, ruleFixedA] 0 (by decide)

/-- C5 counterexample: the evaluator's result is not always non-negative —
an in-force matching rule carrying a negative value drives the total below
zero. -/
theorem commission_can_be_negative_cex :
    calculate_commission_for_procedure procCounty [ruleNegative] 0 =
      Except.ok (-1) ∧ ((-1 : ℚ) < 0) := by
  constructor
  · simp [calculate_commission_for_procedure, calcGo, condDict, inForce,
      matchesCond, ruleContribution, ruleNegative, List.filter]
  · norm_num

/-- Loop invariant for C5: from a non-negative running total, rules with
non-negative values and a non-negative revenue keep the total
non-negative. -/
theorem calcGo_nonneg (p : Procedure) (l : List CommissionRule)
    (hv : ∀ r ∈ l, 0 ≤ r.value) (hrev : 0 ≤ p.revenue.getD 0) :
    ∀ a out, 0 ≤ a → calcGo p l a = Except.ok out → 0 ≤ out := by
  induction l with
  | nil =>
    intro a out ha h
    simp only [calcGo, Except.ok.injEq] at h
    exact h ▸ ha
  | cons r rest ih =>
    intro a out ha h
    have hvr := hv r (List.mem_cons_self r rest)
    have hvrest : ∀ x ∈ rest, 0 ≤ x.value :=
      fun x hx => hv x (List.mem_cons_of_mem _ hx)
    have hcontrib : 0 ≤ ruleContribution p r := by
      unfold ruleContribution
      split
      · exact mul_nonneg hrev (div_nonneg hvr (by norm_num))
      · exact hvr
    simp only [calcGo] at h
    revert h
    cases hcd : condDict r.condition <;> intro h <;> simp only [] at h
    case pdict items =>
      by_cases hm : matchesCond p items = true
      · rw [if_pos hm] at h
        exact ih hvrest _ _ (add_nonneg ha hcontrib) h
      · rw [if_neg hm] at h
        exact ih hvrest _ _ ha h
    all_goals exact absurd h (by simp)

/-- C5 as amended: the amount returned by the evaluator is non-negative
provided every rule's value is non-negative and the procedure's revenue is
non-negative — exactly the bounds the admin and entry forms enforce
(`st.number_input(..., min_value=0.0)` for both). -/
theorem commission_nonneg_of_nonneg_values
    (p : Procedure) (db : List CommissionRule) (now : Int) (out : ℚ)
    (hv : ∀ r ∈ db, 0 ≤ r.value) (hrev : 0 ≤ p.revenue.getD 0)
    (h : calculate_commission_for_procedure p db now = Except.ok out) :
    0 ≤ out := by
  unfold calculate_commission_for_procedure at h
  exact calcGo_nonneg p _ (fun r hr => hv r (List.mem_filter.1 hr).1) hrev
    0 out le_rfl h

/-- Witness for amended C5: the spec's example rule set on revenue 10000
returns 1500, which the theorem bounds below by zero. -/
theorem commission_nonneg_of_nonneg_values_witness : (0 : ℚ) ≤ 1500 :=
  commission_nonneg_of_nonneg_values procCounty [ruleFixedA, rulePctB] 0 1500
    (by norm_num [ruleFixedA, rulePctB])
    (by norm_num [procCounty])
    (by simp [calculate_commission_for_procedure, calcGo, condDict, inForce,
          matchesCond, ruleContribution, ruleFixedA, rulePctB, procCounty,
          List.filter]
        norm_num)

/-- C6: the evaluator is a pure function of the procedure, the in-force
rule snapshot and the evaluation instant — two evaluations whose rule sets
agree on the in-force rules at the same instant return the same amount. -/
theorem evaluator_deterministic_on_snapshot
    (p : Procedure) (db1 db2 : List CommissionRule) (now : Int)
    (h : (db1.filter fun r => inForce r now) =
      (db2.filter fun r => inForce r now)) :
    calculate_commission_for_procedure p db1 now =
      calculate_commission_for_procedure p db2 now := by
  unfold calculate_commission_for_procedure
  rw [h]

/-- Witness for C6: adding an inactive rule to the snapshot does not change
the evaluation. -/
theorem evaluator_deterministic_on_snapshot_witness :
    calculate_commission_for_procedure procCounty [ruleFixedA, rulePctB] 0 =
      calculate_commission_for_procedure procCounty
        [ruleInactive, ruleFixedA, rulePctB] 0 :=
  evaluator_deterministic_on_snapshot procCounty [ruleFixedA, rulePctB]
    [ruleInactive, ruleFixedA, rulePctB] 0 rfl

/-- C7: a candidate rule whose condition mapping is empty (or NULL, which
the code replaces by the empty mapping) matches every procedure, and its
contribution is added to whatever the rest of the rule set produces. -/
theorem empty_condition_rule_always_included
    (p : Procedure) (r : CommissionRule) (db : List CommissionRule)
    (now : Int)
    (hc : r.condition = Option.none ∨ r.condition = some (PyVal.pdict []))
    (hf : inForce r now = true) :
    ruleMatches p r = true ∧
      calculate_commission_for_procedure p (r :: db) now =
        Except.map (fun q => ruleContribution p r + q)
          (calculate_commission_for_procedure p db now) := by
  have hm : ruleMatches p r = true := by
    rcases hc with hc | hc <;>
      simp [ruleMatches, condDict, matchesCond, hc, pyTruthy]
  exact ⟨hm, calc_cons_match p r db now hf hm⟩

/-- Witness for C7: the unconditional fixed-500 rule matches the County
Hospital procedure and its contribution is included. -/
theorem empty_condition_rule_always_included_witness :
    ruleMatches procCounty ruleFixedA = true ∧
      calculate_commission_for_procedure procCounty
          (ruleFixedA :: [rulePctB]) 0 =
        Except.map (fun q => ruleContribution procCounty ruleFixedA + q)
          (calculate_commission_for_procedure procCounty [rulePctB] 0) :=
  empty_condition_rule_always_included procCounty ruleFixedA [rulePctB] 0
    (Or.inl rfl) (by decide)

/-- C8: evaluating any procedure against an empty (or absent) rule set
returns exactly zero and is not an error. -/
theorem empty_rule_set_yields_zero (p : Procedure) (now : Int) :
    calculate_commission_for_procedure p [] now = Except.ok 0 := rfl

/-- C9: a rule whose mode is any string other than exactly "percentage" —
a misspelling included — falls into the catch-all `else` branch and adds
its raw value as a fixed amount. -/
theorem non_percentage_mode_adds_fixed_value
    (p : Procedure) (r : CommissionRule) (db : List CommissionRule)
    (now : Int) (hm : r.mode ≠ "percentage") (hf : inForce r now = true)
    (hmatch : ruleMatches p r = true) :
    calculate_commission_for_procedure p (r :: db) now =
      Except.map (fun q => r.value + q)
        (calculate_commission_for_procedure p db now) := by
  have h := calc_cons_match p r db now hf hmatch
  have hc : ruleContribution p r = r.value := by
    simp [ruleContribution, hm]
  rw [hc] at h
  exact h

/-- Witness for C9: a rule with the misspelled mode "fixd" adds its value
250 as a fixed amount. -/
theorem non_percentage_mode_adds_fixed_value_witness :
    calculate_commission_for_procedure procCounty [ruleTypoMode] 0 =
      Except.map (fun q => ruleTypoMode.value + q)
        (calculate_commission_for_procedure procCounty [] 0) :=
  non_percentage_mode_adds_fixed_value procCounty ruleTypoMode [] 0
    (by decide) (by decide) (by decide)

/-- C10: for every condition key whose attribute reads as None through
`getattr` — which is what a NULL-valued column and an absent attribute
alike produce — the rule never matches, whatever expected value the
condition carries for that key: the inner loop breaks on None before any
string comparison is attempted, so even an expected value whose lowercased
string is "none" does not rescue the match. -/
theorem none_valued_attribute_never_matches
    (p : Procedure) (r : CommissionRule) (cond : List (String × PyVal))
    (k : String) (v : PyVal)
    (hattr : p.getattr k = Option.none)
    (hcd : condDict r.condition = PyVal.pdict cond)
    (hmem : (k, v) ∈ cond) :
    ruleMatches p r = false := by
  unfold ruleMatches
  rw [hcd]
  unfold matchesCond
  refine Bool.eq_false_iff.mpr fun hall => ?_
  rw [List.all_eq_true] at hall
  have h2 := hall (k, v) hmem
  simp [hattr] at h2

/-- Witness for C10 at the claim's own example key: a procedure whose
`notes` column exists but is NULL reads as None through `getattr` and is
not matched by a rule whose condition expects `notes = "none"`. -/
theorem none_valued_attribute_never_matches_witness :
    procNoNotes.getattr "notes" = Option.none ∧
      ruleMatches procNoNotes ruleNotesNone = false :=
  ⟨rfl, none_valued_attribute_never_matches procNoNotes ruleNotesNone
    [("notes", PyVal.pstr "none")] "notes" (PyVal.pstr "none") rfl rfl
    (List.mem_singleton.mpr rfl)⟩
